import Mathlib

/-!
Verification of the stock-dashboard backend (src/api/main.py).

This file shallowly embeds the logic-bearing parts of the backend:
the health-alert classifier, the RSI fragment of the per-code data
endpoint, the portfolio buy/sell endpoints, the delete-trade replay,
the watchlist add and bulk-PER-refresh endpoints and the analysis
report deletion endpoint, and proves the specified properties.

Modelling conventions: Python floats are modelled as exact rationals;
the pandas NaN/inf values arising in the RSI pipeline are modelled
explicitly by the type RVal; Python dicts keyed by stock code are
modelled as insertion-ordered association lists, matching dict
iteration order; network/store effects are modelled as explicit state
passing with injected success/failure of the external calls.
-/

/-- Banker's rounding (Python's round) of a rational to an integer. -/
def roundHalfEven (q : ℚ) : ℤ :=
  if q - ⌊q⌋ < 1/2 then ⌊q⌋
  else if 1/2 < q - ⌊q⌋ then ⌊q⌋ + 1
  else if ⌊q⌋ % 2 = 0 then ⌊q⌋ else ⌊q⌋ + 1

/-- Python round(x, 2). -/
def round2 (q : ℚ) : ℚ := (roundHalfEven (q * 100) : ℚ) / 100

/-- Python round(x, 1). -/
def round1 (q : ℚ) : ℚ := (roundHalfEven (q * 10) : ℚ) / 10

/-- Python round(x, 0). -/
def round0 (q : ℚ) : ℚ := (roundHalfEven q : ℚ)

/-! ## Health alert classifier (health_alert in src/api/main.py) -/

/-- The "technical" sub-dict produced by get_full_data. -/
structure Technical where
  rsi : Option ℚ
  sma50 : Option ℚ
  sma200 : Option ℚ
  golden_cross : Option Bool
  death_cross : Option Bool
deriving DecidableEq, Repr

/-- The "fundamentals" sub-dict produced by get_full_data. -/
structure Fundamentals where
  roe : Option ℚ
  operating_margin : Option ℚ
  revenue_growth : Option ℚ
deriving DecidableEq, Repr

/-- The dict handed to health_alert: technical and fundamental
snapshots plus the current price from the "price" sub-dict. -/
structure StockData where
  technical : Technical
  fundamentals : Fundamentals
  current : Option ℚ
deriving DecidableEq, Repr

/-- The alert dict returned by health_alert. -/
structure Alert where
  level : String
  label : String
  reason : String
deriving DecidableEq, Repr

/-- Python truthiness of an optional float: None and 0.0 are falsy. -/
def truthyQ : Option ℚ → Bool
  | some q => q != 0
  | none => false

/-- Python truthiness of an optional bool: None and False are falsy. -/
def truthyB : Option Bool → Bool
  | some b => b
  | none => false

/-- The fund_bad count in health_alert: sum of the three fundamental-bad
conditions, each guarded by an "is not None" check. -/
def fund_bad (f : Fundamentals) : ℕ :=
  (if (match f.roe with | some r => decide (r < 0) | none => false) then 1 else 0) +
  (if (match f.revenue_growth with | some g => decide (g < -(1/10)) | none => false) then 1 else 0) +
  (if (match f.operating_margin with | some m => decide (m < 0) | none => false) then 1 else 0)

/-- health_alert from src/api/main.py: strict priority
red, then orange, then yellow, then green; the sma_gap_pct guard uses
Python truthiness of sma50 and sma200 (None or 0.0 skip it), as does the
price-below-SMA50 disjunct of the yellow rule. -/
def health_alert (d : StockData) : Alert :=
  let rsi := d.technical.rsi
  let death_cross := d.technical.death_cross
  let sma50 := d.technical.sma50
  let sma200 := d.technical.sma200
  let fundBad := fund_bad d.fundamentals
  let sma_gap_pct : Option ℚ :=
    match sma50, sma200 with
    | some a, some b => if a != 0 && b != 0 then some (|a - b| / b * 100) else none
    | _, _ => none
  if truthyB death_cross && decide (2 ≤ fundBad) then
    { level := "red", label := "🔴 撤退検討", reason := "デッドクロス発生 + 業績複数悪化" }
  else if (match sma_gap_pct with | some g => decide (g ≤ 5) | none => false) && decide (1 ≤ fundBad) then
    { level := "orange", label := "🟠 注意", reason := "SMA50とSMA200が接近 + 業績に陰り" }
  else if (match rsi with | some r => decide (r ≤ 30) | none => false) ||
      (truthyQ sma50 && truthyQ d.current &&
        (match d.current, sma50 with | some c, some s => decide (c < s) | _, _ => false)) then
    { level := "yellow", label := "🟡 早期警告", reason := "RSI売られすぎ or SMA50割れ" }
  else
    { level := "green", label := "✅ 問題なし", reason := "特に懸念なし" }

/-! ## RSI pipeline (the technical-indicator fragment of get_full_data)

The pandas pipeline closes.diff / clip / rolling(14).mean / gain/loss
division is embedded over exact rationals.  A pandas value at the last
index is either a finite float, +inf (positive/0.0 division) or NaN
(undefined rolling window or 0.0/0.0); RVal models these three cases. -/

/-- A pandas float value: finite, +inf or NaN. -/
inductive RVal where
  | nan : RVal
  | inf : RVal
  | fin : ℚ → RVal
deriving DecidableEq, Repr

/-- closes.diff(): NaN at index 0, then consecutive differences. -/
def priceDeltas (closes : List ℚ) : List (Option ℚ) :=
  none :: List.zipWith (fun a b => some (b - a)) closes closes.tail

/-- delta.clip(lower=0): gains series. -/
def gainSeries (closes : List ℚ) : List (Option ℚ) :=
  (priceDeltas closes).map (Option.map (fun d => max d 0))

/-- (-delta.clip(upper=0)): losses series. -/
def lossSeries (closes : List ℚ) : List (Option ℚ) :=
  (priceDeltas closes).map (Option.map (fun d => max (-d) 0))

/-- The last entry of s.rolling(14).mean(): the window is the last
(up to) 14 entries; with the default min_periods = 14 the mean is
defined only when the window holds 14 non-NaN values. -/
def rollingMean14Last (xs : List (Option ℚ)) : Option ℚ :=
  let w := xs.drop (xs.length - 14)
  let vals := w.filterMap id
  if 14 ≤ vals.length then some (vals.sum / 14) else none

/-- The last entry of rs = gain / loss: NaN if either side is an
undefined rolling mean or on 0.0/0.0; +inf on positive/0.0. -/
def rsLast (closes : List ℚ) : RVal :=
  match rollingMean14Last (gainSeries closes), rollingMean14Last (lossSeries closes) with
  | some g, some l =>
      if l = 0 then (if g = 0 then RVal.nan else RVal.inf) else RVal.fin (g / l)
  | _, _ => RVal.nan

/-- The last entry of 100 - (100 / (1 + rs)): in IEEE arithmetic
100 - 100/(1 + inf) = 100 - 0 = 100 exactly, and NaN propagates. -/
def rsiLast (closes : List ℚ) : RVal :=
  match rsLast closes with
  | RVal.nan => RVal.nan
  | RVal.inf => RVal.fin 100
  | RVal.fin r => RVal.fin (100 - 100 / (1 + r))

/-- round(x, 1) lifted to pandas values: round(nan, 1) is nan. -/
def roundRVal1 : RVal → RVal
  | RVal.nan => RVal.nan
  | RVal.inf => RVal.inf
  | RVal.fin q => RVal.fin (round1 q)

/-- The rsi variable of get_full_data: None when fewer than 14 price
points exist; otherwise round(rsi_series.iloc[-1], 1), where the series
is never empty, so the "if not rsi_series.empty" guard never yields
None on this path. -/
def computeRsi (closes : List ℚ) : Option RVal :=
  if 14 ≤ closes.length then some (roundRVal1 (rsiLast closes)) else none

/-- Evaluation of roundHalfEven when the fractional part is below one half. -/
lemma roundHalfEven_eq_down (q : ℚ) (n : ℤ) (h1 : (n : ℚ) ≤ q) (h2 : q < n + 1/2) :
    roundHalfEven q = n := by
  have hf : ⌊q⌋ = n := Int.floor_eq_iff.mpr ⟨h1, by linarith⟩
  rw [roundHalfEven, hf, if_pos (by linarith)]

/-- Evaluation of roundHalfEven when the fractional part is above one half. -/
lemma roundHalfEven_eq_up (q : ℚ) (n : ℤ) (h1 : (n : ℚ) + 1/2 < q) (h2 : q < n + 1) :
    roundHalfEven q = n + 1 := by
  have hf : ⌊q⌋ = n := Int.floor_eq_iff.mpr ⟨by linarith, by linarith⟩
  rw [roundHalfEven, hf, if_neg (by linarith), if_pos (by linarith)]

-- evaluation test vectors for the rounding embedding
example : round2 (1100 : ℚ) = 1100 := by
  rw [round2, show ((1100 : ℚ) * 100) = ((110000 : ℤ) : ℚ) by norm_num,
    roundHalfEven_eq_down _ 110000 (by norm_num) (by norm_num)]
  norm_num
example : round1 (100 : ℚ) = 100 := by
  rw [round1, show ((100 : ℚ) * 10) = ((1000 : ℤ) : ℚ) by norm_num,
    roundHalfEven_eq_down _ 1000 (by norm_num) (by norm_num)]
  norm_num
example : computeRsi [1, 2, 3] = none := by simp [computeRsi]
def allMissingData : StockData :=
  { technical := ⟨none, none, none, none, none⟩
    fundamentals := ⟨none, none, none⟩
    current := none }

def redExampleData : StockData :=
  { technical := ⟨some 20, some 90, some 100, some false, some true⟩
    fundamentals := ⟨some (-5/100), some (1/10), some (-2/10)⟩
    current := some 95 }

def orangeExampleData : StockData :=
  { technical := ⟨some 50, some 98, some 100, some false, some false⟩
    fundamentals := ⟨some (-1/100), some (1/10), some 0⟩
    current := some 99 }

example :
    health_alert allMissingData =
      { level := "green", label := "✅ 問題なし", reason := "特に懸念なし" } := by
  norm_num [health_alert, fund_bad, truthyB, truthyQ, allMissingData]
example : (health_alert redExampleData).level = "red" := by
  norm_num [health_alert, fund_bad, truthyB, truthyQ, redExampleData]
example : (health_alert orangeExampleData).level = "orange" := by
  norm_num [health_alert, fund_bad, truthyB, truthyQ, orangeExampleData]

/-! ## Portfolio data model and endpoints -/

/-- HTTP error classes raised via HTTPException in src/api/main.py. -/
inductive ApiError where
  | notFound (detail : String)
  | conflict (detail : String)
  | badRequest (detail : String)
  | serverError (detail : String)
  | serviceUnavailable (detail : String)
deriving DecidableEq, Repr

/-- A holding dict of the portfolio document. -/
structure Holding where
  code : String
  name : String
  shares : ℤ
  avg_cost : ℚ
  purchase_date : String
  note : String
deriving DecidableEq, Repr

/-- A trade dict of trade_history; sells carry a profit field. -/
structure Trade where
  date : String
  code : String
  name : String
  action : String
  shares : ℤ
  price : ℚ
  profit : Option ℚ
deriving DecidableEq, Repr

/-- The portfolio document. -/
structure Portfolio where
  holdings : List Holding
  trade_history : List Trade
deriving DecidableEq, Repr

/-- next((h for h in holdings if h.code == code), None): the holdings
dict/list lookup used by the endpoints. -/
def findH (hs : List Holding) (code : String) : Option Holding :=
  hs.find? (fun h => h.code == code)

/-- In-place mutation of the first (unique) holding with the given
code, as Python does by mutating the object found by next(...) or the
dict entry holdings[code]. -/
def updateFirst (code : String) (h1 : Holding) : List Holding → List Holding
  | [] => []
  | h :: rest => if h.code == code then h1 :: rest else h :: updateFirst code h1 rest

/-- Request body of POST /api/portfolio/buy. -/
structure BuyRequest where
  code : String
  name : String
  shares : ℤ
  price : ℚ
  note : String
deriving DecidableEq, Repr

/-- Request body of POST /api/portfolio/sell. -/
structure SellRequest where
  code : String
  shares : ℤ
  price : ℚ
deriving DecidableEq, Repr

/-- buy_stock: append the buy trade, then either recompute the
existing holding's avg_cost (total cost over the new share count,
rounded to 2 decimals) or append a fresh holding. -/
def buy_stock (data : Portfolio) (req : BuyRequest) (today : String) : Portfolio × Trade :=
  let trade : Trade :=
    { date := today
      code := req.code
      name := req.name
      action := "buy"
      shares := req.shares
      price := req.price
      profit := none }
  let history := data.trade_history ++ [trade]
  let holdings :=
    match findH data.holdings req.code with
    | some existing =>
        let total_cost := existing.avg_cost * (existing.shares : ℚ) + req.price * (req.shares : ℚ)
        let existing1 := { existing with shares := existing.shares + req.shares }
        let existing2 := { existing1 with avg_cost := round2 (total_cost / (existing1.shares : ℚ)) }
        updateFirst req.code existing2 data.holdings
    | none =>
        data.holdings ++
          [{ code := req.code
             name := req.name
             shares := req.shares
             avg_cost := req.price
             purchase_date := today
             note := req.note }]
  ({ holdings := holdings, trade_history := history }, trade)

/-- sell_stock: reject an unknown code with 404 and an oversell with
400 before anything is mutated; otherwise record the sell trade with
its realized profit, decrement the shares and drop the holding when
the shares reach exactly 0. -/
def sell_stock (data : Portfolio) (req : SellRequest) (today : String) :
    Except ApiError (Portfolio × Trade) :=
  match findH data.holdings req.code with
  | none => .error (.notFound (req.code ++ " はポートフォリオに見つかりません"))
  | some existing =>
    if existing.shares < req.shares then
      .error (.badRequest ("保有株数（" ++ toString existing.shares ++ "株）を超える売却はできません"))
    else
      let profit := round0 ((req.price - existing.avg_cost) * (req.shares : ℚ))
      let trade : Trade :=
        { date := today
          code := req.code
          name := existing.name
          action := "sell"
          shares := req.shares
          price := req.price
          profit := some profit }
      let history := data.trade_history ++ [trade]
      let existing1 := { existing with shares := existing.shares - req.shares }
      let holdings1 := updateFirst req.code existing1 data.holdings
      let holdings2 :=
        if existing1.shares = 0 then holdings1.filter (fun h => !(h.code == req.code))
        else holdings1
      .ok ({ holdings := holdings2, trade_history := history }, trade)

/-- The sell endpoint including the document fetch: an absent
portfolio document is a 404. -/
def sell_endpoint (stored : Option Portfolio) (req : SellRequest) (today : String) :
    Except ApiError (Portfolio × Trade) :=
  match stored with
  | none => .error (.notFound "ポートフォリオデータが存在しません")
  | some data => sell_stock data req today

/-- The portfolio document persisted after a sell request:
github_update_json runs only on the success path, so an error leaves
the stored document untouched. -/
def persistedAfterSell (stored : Option Portfolio) (req : SellRequest) (today : String) :
    Option Portfolio :=
  match sell_endpoint stored req today with
  | .ok (p, _) => some p
  | .error _ => stored

/-! ## Delete-trade replay (delete_trade in src/api/main.py) -/

/-- One iteration of the delete_trade rebuild loop: replay a single
trade into the holdings mapping. -/
def replayStep (hs : List Holding) (t : Trade) : List Holding :=
  if t.action == "buy" then
    match findH hs t.code with
    | some h =>
        let total_cost := h.avg_cost * (h.shares : ℚ) + t.price * (t.shares : ℚ)
        let h1 := { h with shares := h.shares + t.shares }
        let h2 := { h1 with avg_cost := round2 (total_cost / (h1.shares : ℚ)) }
        updateFirst t.code h2 hs
    | none =>
        hs ++
          [{ code := t.code
             name := t.name
             shares := t.shares
             avg_cost := t.price
             purchase_date := t.date
             note := "" }]
  else if t.action == "sell" then
    match findH hs t.code with
    | some h =>
        let h1 := { h with shares := h.shares - t.shares }
        let hs1 := updateFirst t.code h1 hs
        if h1.shares ≤ 0 then hs1.filter (fun x => !(x.code == t.code)) else hs1
    | none => hs
  else hs

/-- The delete_trade rebuild loop: replay the surviving history into a
fresh holdings mapping. -/
def rebuildHoldings (history : List Trade) : List Holding :=
  history.foldl replayStep []

/-- delete_trade: bounds-check the index (404 when out of range), pop
the trade, rebuild holdings from the surviving history and store both. -/
def delete_trade (data : Portfolio) (index : ℤ) : Except ApiError Portfolio :=
  let history := data.trade_history
  if index < 0 ∨ (history.length : ℤ) ≤ index then
    .error (.notFound "取引インデックスが範囲外です")
  else
    let history1 := history.eraseIdx index.toNat
    .ok { holdings := rebuildHoldings history1, trade_history := history1 }

/-- Reconstruction written from the spec 4.3 wording (for the
refinement comparison): on a buy into an existing holding, recompute
avg_cost as (avg_cost*shares + price*shares)/(shares+shares) rounded
to 2 decimals and then increment shares; on a sell decrement and drop
the holding when the result is at most 0; ignore a sell with no
matching holding. -/
def specReplayStep (hs : List Holding) (t : Trade) : List Holding :=
  if t.action == "buy" then
    match findH hs t.code with
    | some h =>
        let newAvg := round2 ((h.avg_cost * (h.shares : ℚ) + t.price * (t.shares : ℚ)) /
          ((h.shares : ℚ) + (t.shares : ℚ)))
        updateFirst t.code { h with avg_cost := newAvg, shares := h.shares + t.shares } hs
    | none =>
        hs ++
          [{ code := t.code
             name := t.name
             shares := t.shares
             avg_cost := t.price
             purchase_date := t.date
             note := "" }]
  else if t.action == "sell" then
    match findH hs t.code with
    | some h =>
        let h1 := { h with shares := h.shares - t.shares }
        let hs1 := updateFirst t.code h1 hs
        if h1.shares ≤ 0 then hs1.filter (fun x => !(x.code == t.code)) else hs1
    | none => hs
  else hs

/-- Spec 4.3 reconstruction of the holdings mapping from an ordered
trade sequence. -/
def specReconstruct (trades : List Trade) : List Holding :=
  trades.foldl specReplayStep []

/-! ## Watchlist endpoints (add_watchlist, update_watchlist_per) -/

/-- One entry of the per_history log. -/
structure PerHist where
  date : String
  per : Option ℚ
  source : String
deriving DecidableEq, Repr

/-- A watchlist entry; status is optional since Python reads it with
entry.get("status"). -/
structure WEntry where
  code : String
  name : String
  added_date : String
  note : String
  kabumart_rank : String
  status : Option String
  per : Option ℚ
  per_history : List PerHist
deriving DecidableEq, Repr

/-- Request body of POST /api/watchlist. -/
structure WatchlistAddRequest where
  code : String
  name : String
  note : String
  kabumart_rank : String
  per : Option ℚ
deriving DecidableEq, Repr

/-- The entry dict built by add_watchlist: status is hard-coded to
"archived"; per and per_history are present only when the request
carried a per value. -/
def mkWatchEntry (req : WatchlistAddRequest) (today : String) : WEntry :=
  { code := req.code
    name := req.name
    added_date := today
    note := req.note
    kabumart_rank := req.kabumart_rank
    status := some "archived"
    per := req.per
    per_history :=
      match req.per with
      | some p => [{ date := today, per := some p, source := "analysis" }]
      | none => [] }

/-- add_watchlist: 409 on a duplicate code, otherwise append the new
entry to the document. -/
def add_watchlist (wl : List WEntry) (req : WatchlistAddRequest) (today : String) :
    Except ApiError (List WEntry) :=
  if wl.any (fun item => item.code == req.code) then
    .error (.conflict (req.name ++ "（" ++ req.code ++ "）はすでに登録済みです"))
  else
    .ok (wl ++ [mkWatchEntry req today])

/-- Mutate the first same-day per_history entry in place, as the
same_day[0] assignment in update_watchlist_per does. -/
def replaceFirstSameDay (today : String) (per : Option ℚ) : List PerHist → List PerHist
  | [] => []
  | h :: rest =>
      if h.date == today then { h with per := per, source := "yfinance" } :: rest
      else h :: replaceFirstSameDay today per rest

/-- The successful per-entry body of the update_watchlist_per loop:
set per to the fetched multiple rounded to 1 decimal, then overwrite
the same-day per_history entry or append a new one. -/
def refreshEntry (e : WEntry) (today : String) (fetched : Option ℚ) : WEntry :=
  let per := fetched.map round1
  let history := e.per_history
  let history1 :=
    if history.any (fun h => h.date == today) then replaceFirstSameDay today per history
    else history ++ [{ date := today, per := per, source := "yfinance" }]
  { e with per := per, per_history := history1 }

/-- The update_watchlist_per loop over the watchlist: archived entries
are skipped untouched; a per-code fetch failure leaves the entry
untouched and adds it to the errors list; a success rewrites the entry
and adds it to the results list.  The external yfinance call is
abstracted as a function from code to the forward-or-trailing multiple
or a failure. -/
def update_watchlist_per (wl : List WEntry) (fetch : String → Except String (Option ℚ))
    (today : String) : List WEntry × List String × List String :=
  wl.foldl
    (fun acc e =>
      if e.status == some "archived" then (acc.1 ++ [e], acc.2.1, acc.2.2)
      else
        match fetch e.code with
        | .ok raw => (acc.1 ++ [refreshEntry e today raw], acc.2.1 ++ [e.code], acc.2.2)
        | .error _ => (acc.1 ++ [e], acc.2.1, acc.2.2 ++ [e.code]))
    ([], [], [])

/-! ## Report deletion (delete_report in src/api/main.py) -/

/-- A manifest stocks entry; the code key is optional since Python
reads it with s.get("code"). -/
structure ManifestEntry where
  code : Option String
deriving DecidableEq, Repr

/-- The slice of the remote document store touched by delete_report:
whether the per-code analysis JSON exists and the manifest stocks
list. -/
structure AnalysisStore where
  reportExists : Bool
  manifest : List ManifestEntry
deriving DecidableEq, Repr

/-- delete_report: step 1 deletes the analysis JSON (404 when absent,
500 on an API failure, nothing persisted in either case); step 2
fetches the manifest, filters the code out and writes it back — any
step-2 failure returns 500 with the step-1 deletion already
persisted.  The two external GitHub operations are abstracted as
injected success flags. -/
def delete_report (st : AnalysisStore) (code : String) (deleteApiOk manifestOk : Bool) :
    Except ApiError String × AnalysisStore :=
  if st.reportExists = false then
    (.error (.notFound (code ++ " の分析レポートが見つかりません")), st)
  else if deleteApiOk = false then
    (.error (.serverError "GitHub API DELETE 失敗"), st)
  else
    let st1 : AnalysisStore := { st with reportExists := false }
    if manifestOk = false then
      (.error (.serverError "manifest更新失敗"), st1)
    else
      (.ok code,
        { st1 with manifest := st1.manifest.filter (fun s => !(s.code == some code.toUpper)) })

/-! ## Helper lemmas on the holdings association list -/

lemma mem_updateFirst {x h1 : Holding} {code : String} :
    ∀ {hs : List Holding}, x ∈ updateFirst code h1 hs → x ∈ hs ∨ x = h1
  | [], hx => by simp [updateFirst] at hx
  | h :: rest, hx => by
      by_cases hc : (h.code == code) = true
      · rw [updateFirst, if_pos hc] at hx
        rcases List.mem_cons.mp hx with hx1 | hx2
        · exact Or.inr hx1
        · exact Or.inl (List.mem_cons_of_mem _ hx2)
      · rw [updateFirst, if_neg hc] at hx
        rcases List.mem_cons.mp hx with hx1 | hx2
        · exact Or.inl (hx1 ▸ List.mem_cons_self _ _)
        · rcases mem_updateFirst hx2 with hx3 | hx4
          · exact Or.inl (List.mem_cons_of_mem _ hx3)
          · exact Or.inr hx4

lemma findH_updateFirst {h1 : Holding} {code : String}
    (hcode : (h1.code == code) = true) {hs : List Holding} (hf : (findH hs code).isSome) :
    findH (updateFirst code h1 hs) code = some h1 := by
  induction hs with
  | nil => simp [findH] at hf
  | cons h rest ih =>
      by_cases hc : (h.code == code) = true
      · rw [updateFirst, if_pos hc]
        simp only [findH, List.find?_cons]
        rw [hcode]
      · rw [updateFirst, if_neg hc]
        simp only [Bool.not_eq_true] at hc
        simp only [findH, List.find?_cons] at hf ⊢
        rw [hc] at hf ⊢
        exact ih hf

lemma replayStep_eq_specStep : replayStep = specReplayStep := by
  funext hs t
  unfold replayStep specReplayStep
  cases hf : findH hs t.code
  · simp [hf]
  · simp only [hf]
    push_cast
    rfl

lemma rebuildHoldings_eq_specReconstruct (l : List Trade) :
    rebuildHoldings l = specReconstruct l := by
  unfold rebuildHoldings specReconstruct
  rw [replayStep_eq_specStep]

/-- A 5-trade portfolio used to instantiate the universally quantified
theorems at concrete inputs. -/
def samplePortfolio : Portfolio :=
  { holdings := [⟨"7203", "Toyota", 120, 1100, "2024-01-05", ""⟩]
    trade_history :=
      [⟨"2024-01-05", "7203", "Toyota", "buy", 100, 1000, none⟩,
       ⟨"2024-02-01", "9984", "SBG", "buy", 10, 6000, none⟩,
       ⟨"2024-03-01", "7203", "Toyota", "buy", 50, 1300, none⟩,
       ⟨"2024-04-01", "7203", "Toyota", "sell", 30, 1500, some 12000⟩,
       ⟨"2024-05-01", "9984", "SBG", "sell", 10, 6500, some 5000⟩] }

/-- C1: deleting the trade at any valid index and replaying the
remaining trades through the delete_trade rebuild loop produces
exactly the holdings that direct reconstruction per the spec 4.3
algorithm from the surviving trade sequence produces, and replaying
the same surviving sequence twice yields identical holdings. -/
theorem delete_trade_replay_matches_spec (data : Portfolio) (index : ℤ)
    (h0 : 0 ≤ index) (h1 : index < (data.trade_history.length : ℤ)) :
    delete_trade data index =
      .ok { holdings := specReconstruct (data.trade_history.eraseIdx index.toNat)
            trade_history := data.trade_history.eraseIdx index.toNat } ∧
    rebuildHoldings (data.trade_history.eraseIdx index.toNat) =
      rebuildHoldings (data.trade_history.eraseIdx index.toNat) := by
  refine ⟨?_, rfl⟩
  unfold delete_trade
  rw [if_neg (by omega)]
  simp only [rebuildHoldings_eq_specReconstruct]

theorem delete_trade_replay_matches_spec_witness :
    delete_trade samplePortfolio 2 =
      .ok { holdings := specReconstruct (samplePortfolio.trade_history.eraseIdx (2 : ℤ).toNat)
            trade_history := samplePortfolio.trade_history.eraseIdx (2 : ℤ).toNat } :=
  (delete_trade_replay_matches_spec samplePortfolio 2 (by norm_num)
    (by simp [samplePortfolio])).1

/-- C3: buying s2 shares at p2 into an existing holding of s1 shares
at cost c1 sets avg_cost to (c1*s1 + p2*s2)/(s1+s2) rounded to 2
decimals and shares to s1+s2, both in buy_stock and in the delete_trade
replay step, and the spec example 100 shares at 1000 plus 50 at 1300
yields 1100.00. -/
theorem buy_recomputes_avg_cost (data : Portfolio) (req : BuyRequest) (today : String)
    (existing : Holding) (hf : findH data.holdings req.code = some existing)
    (_hpos1 : 0 < existing.shares) (_hpos2 : 0 < req.shares) :
    (findH (buy_stock data req today).1.holdings req.code =
      some { existing with
              shares := existing.shares + req.shares
              avg_cost := round2 ((existing.avg_cost * (existing.shares : ℚ) +
                req.price * (req.shares : ℚ)) /
                ((existing.shares : ℚ) + (req.shares : ℚ))) }) ∧
    (∀ (hs : List Holding) (t : Trade), t.action = "buy" →
      findH hs t.code = some existing →
      findH (replayStep hs t) t.code =
        some { existing with
                shares := existing.shares + t.shares
                avg_cost := round2 ((existing.avg_cost * (existing.shares : ℚ) +
                  t.price * (t.shares : ℚ)) /
                  ((existing.shares : ℚ) + (t.shares : ℚ))) }) ∧
    round2 (((1000 : ℚ) * 100 + 1300 * 50) / (100 + 50)) = 1100 := by
  have hpred : (existing.code == req.code) = true := by
    have h2 : List.find? (fun h => h.code == req.code) data.holdings = some existing := by
      simpa [findH] using hf
    simpa using List.find?_some h2
  refine ⟨?_, ?_, ?_⟩
  · unfold buy_stock
    simp only [hf]
    push_cast
    apply findH_updateFirst
    · exact hpred
    · rw [hf]; rfl
  · intro hs t ht hf2
    have hpred2 : (existing.code == t.code) = true := by
      have h2 : List.find? (fun h => h.code == t.code) hs = some existing := by
        simpa [findH] using hf2
      simpa using List.find?_some h2
    unfold replayStep
    simp only [ht, beq_self_eq_true, eq_self_iff_true, if_true, hf2]
    push_cast
    apply findH_updateFirst
    · exact hpred2
    · rw [hf2]; rfl
  · have harg : (((1000 : ℚ) * 100 + 1300 * 50) / (100 + 50)) = 1100 := by norm_num
    rw [harg, round2, show ((1100 : ℚ) * 100) = ((110000 : ℤ) : ℚ) by norm_num,
      roundHalfEven_eq_down _ 110000 (by norm_num) (by norm_num)]
    norm_num

theorem buy_recomputes_avg_cost_witness :
    findH (buy_stock samplePortfolio ⟨"7203", "Toyota", 50, 1300, ""⟩ "2024-06-01").1.holdings
        "7203" =
      some { (⟨"7203", "Toyota", 120, 1100, "2024-01-05", ""⟩ : Holding) with
              shares := (120 : ℤ) + 50
              avg_cost := round2 (((1100 : ℚ) * ((120 : ℤ) : ℚ) + 1300 * ((50 : ℤ) : ℚ)) /
                (((120 : ℤ) : ℚ) + ((50 : ℤ) : ℚ))) } :=
  (buy_recomputes_avg_cost samplePortfolio ⟨"7203", "Toyota", 50, 1300, ""⟩ "2024-06-01"
    ⟨"7203", "Toyota", 120, 1100, "2024-01-05", ""⟩ rfl (by norm_num)
    (by norm_num)).1

/-! ## Positivity of holdings shares -/

lemma holding_of_findH {hs : List Holding} {code : String} {h : Holding}
    (hf : findH hs code = some h) : h ∈ hs ∧ (h.code == code) = true := by
  have h2 : List.find? (fun x => x.code == code) hs = some h := by simpa [findH] using hf
  exact ⟨List.mem_of_find?_eq_some h2, by simpa using List.find?_some h2⟩

lemma replayStep_pos {hs : List Holding} {t : Trade}
    (hpos : ∀ h ∈ hs, 0 < h.shares) (ht : 0 < t.shares) :
    ∀ h ∈ replayStep hs t, 0 < h.shares := by
  intro x hx
  unfold replayStep at hx
  by_cases hb : (t.action == "buy") = true
  · rw [if_pos hb] at hx
    cases hf : findH hs t.code with
    | some h0 =>
        simp only [hf] at hx
        rcases mem_updateFirst hx with hx1 | hx2
        · exact hpos x hx1
        · have h0mem := (holding_of_findH hf).1
          have := hpos h0 h0mem
          rw [hx2]
          simp only []
          omega
    | none =>
        simp only [hf] at hx
        rcases List.mem_append.mp hx with hx1 | hx2
        · exact hpos x hx1
        · simp only [List.mem_singleton] at hx2
          rw [hx2]
          exact ht
  · rw [if_neg hb] at hx
    by_cases hsell : (t.action == "sell") = true
    · rw [if_pos hsell] at hx
      cases hf : findH hs t.code with
      | some h0 =>
          simp only [hf] at hx
          have hcode0 : (h0.code == t.code) = true := (holding_of_findH hf).2
          by_cases hz : h0.shares - t.shares ≤ 0
          · rw [if_pos hz] at hx
            have hx1 := List.mem_filter.mp hx
            rcases mem_updateFirst hx1.1 with hy1 | hy2
            · exact hpos x hy1
            · exfalso
              have := hx1.2
              rw [hy2] at this
              simp only [hcode0] at this
              simp at this
          · rw [if_neg hz] at hx
            rcases mem_updateFirst hx with hy1 | hy2
            · exact hpos x hy1
            · rw [hy2]
              simp only []
              omega
      | none =>
          simp only [hf] at hx
          exact hpos x hx
    · rw [if_neg hsell] at hx
      exact hpos x hx

lemma rebuildHoldings_pos {history : List Trade}
    (ht : ∀ t ∈ history, 0 < t.shares) :
    ∀ h ∈ rebuildHoldings history, 0 < h.shares := by
  unfold rebuildHoldings
  suffices hgen : ∀ (l : List Trade) (acc : List Holding), (∀ t ∈ l, 0 < t.shares) →
      (∀ h ∈ acc, 0 < h.shares) → ∀ h ∈ l.foldl replayStep acc, 0 < h.shares by
    exact hgen history [] ht (by intro h hmem; simp at hmem)
  intro l
  induction l with
  | nil => intro acc _ hacc; simpa using hacc
  | cons t rest ih =>
      intro acc hl hacc
      rw [List.foldl_cons]
      exact ih _ (fun s hs => hl s (List.mem_cons_of_mem _ hs))
        (replayStep_pos hacc (hl t (List.mem_cons_self _ _)))

/-- C7: after a sell and after a delete-trade replay, every holding
still present has strictly positive shares: a holding reaching 0 (or
below, during replay) is removed rather than retained. -/
theorem holdings_shares_positive :
    (∀ (data : Portfolio) (req : SellRequest) (today : String) (out : Portfolio × Trade),
      (∀ h ∈ data.holdings, 0 < h.shares) →
      sell_stock data req today = .ok out →
      ∀ h ∈ out.1.holdings, 0 < h.shares) ∧
    (∀ history : List Trade, (∀ t ∈ history, 0 < t.shares) →
      ∀ h ∈ rebuildHoldings history, 0 < h.shares) := by
  refine ⟨?_, fun history ht => rebuildHoldings_pos ht⟩
  intro data req today out hpos hok x hx
  unfold sell_stock at hok
  cases hf : findH data.holdings req.code with
  | none => rw [hf] at hok; cases hok
  | some existing =>
      simp only [hf] at hok
      have hcode0 : (existing.code == req.code) = true := (holding_of_findH hf).2
      by_cases hover : existing.shares < req.shares
      · rw [if_pos hover] at hok; cases hok
      · rw [if_neg hover] at hok
        injection hok with hok1
        subst hok1
        simp only [] at hx
        by_cases hz : existing.shares - req.shares = 0
        · rw [if_pos hz] at hx
          have hx1 := List.mem_filter.mp hx
          rcases mem_updateFirst hx1.1 with hy1 | hy2
          · exact hpos x hy1
          · exfalso
            have hcond := hx1.2
            rw [hy2] at hcond
            simp only [hcode0] at hcond
            simp at hcond
        · rw [if_neg hz] at hx
          rcases mem_updateFirst hx with hy1 | hy2
          · exact hpos x hy1
          · have := hpos existing (holding_of_findH hf).1
            rw [hy2]
            simp only []
            omega

theorem holdings_shares_positive_witness :
    0 < (Holding.mk "7203" "Toyota" 100 1100 "2024-01-05" "").shares ∧
    0 < (Holding.mk "7203" "Toyota" 100 1000 "2024-01-05" "").shares := by
  constructor
  · refine holdings_shares_positive.1 samplePortfolio ⟨"7203", 20, 1200⟩ "2024-07-01"
      ({ holdings := [⟨"7203", "Toyota", 100, 1100, "2024-01-05", ""⟩]
         trade_history := samplePortfolio.trade_history ++
           [⟨"2024-07-01", "7203", "Toyota", "sell", 20, 1200,
             some (round0 (((1200 : ℚ) - 1100) * ((20 : ℤ) : ℚ)))⟩] },
       ⟨"2024-07-01", "7203", "Toyota", "sell", 20, 1200,
         some (round0 (((1200 : ℚ) - 1100) * ((20 : ℤ) : ℚ)))⟩) ?_ rfl _ ?_
    · intro h hh
      simp only [samplePortfolio, List.mem_singleton] at hh
      subst hh
      norm_num
    · simp
  · refine holdings_shares_positive.2
      [⟨"2024-01-05", "7203", "Toyota", "buy", 100, 1000, none⟩] ?_ _ ?_
    · intro t htm
      simp only [List.mem_singleton] at htm
      subst htm
      norm_num
    · rw [show rebuildHoldings [⟨"2024-01-05", "7203", "Toyota", "buy", 100, 1000, none⟩] =
        [⟨"7203", "Toyota", 100, 1000, "2024-01-05", ""⟩] from rfl]
      exact List.mem_singleton.mpr rfl

/-- C8: a sell request for more shares than held is rejected with a
400 error whose message quotes the held share count, and the stored
portfolio document is not touched: no trade is appended and the
holding is unchanged. -/
theorem sell_exceeding_shares_rejected (data : Portfolio) (req : SellRequest) (today : String)
    (existing : Holding) (hf : findH data.holdings req.code = some existing)
    (hover : existing.shares < req.shares) :
    sell_stock data req today =
      .error (.badRequest
        ("保有株数（" ++ toString existing.shares ++ "株）を超える売却はできません")) ∧
    persistedAfterSell (some data) req today = some data := by
  have h1 : sell_stock data req today =
      .error (.badRequest
        ("保有株数（" ++ toString existing.shares ++ "株）を超える売却はできません")) := by
    unfold sell_stock
    simp only [hf]
    rw [if_pos hover]
  refine ⟨h1, ?_⟩
  unfold persistedAfterSell sell_endpoint
  simp only [h1]

theorem sell_exceeding_shares_rejected_witness :
    sell_stock samplePortfolio ⟨"7203", 200, 1200⟩ "2024-07-01" =
      .error (.badRequest
        ("保有株数（" ++ toString (120 : ℤ) ++ "株）を超える売却はできません")) ∧
    persistedAfterSell (some samplePortfolio) ⟨"7203", 200, 1200⟩ "2024-07-01" =
      some samplePortfolio :=
  sell_exceeding_shares_rejected samplePortfolio ⟨"7203", 200, 1200⟩ "2024-07-01"
    ⟨"7203", "Toyota", 120, 1100, "2024-01-05", ""⟩ rfl (by norm_num)

/-- C2: whenever death_cross is true and at least two fundamental-bad
conditions hold (the fund_bad count of roe, revenue_growth and
operating_margin conditions), the classifier returns level red — the
red rule is checked first, so any lower-priority rule that also holds
cannot win. -/
theorem health_alert_red_priority (d : StockData)
    (hdc : d.technical.death_cross = some true) (hfb : 2 ≤ fund_bad d.fundamentals) :
    (health_alert d).level = "red" := by
  simp only [health_alert, hdc, truthyB, decide_eq_true hfb, Bool.and_true, if_true]

theorem health_alert_red_priority_witness :
    (health_alert redExampleData).level = "red" :=
  health_alert_red_priority redExampleData rfl
    (by norm_num [fund_bad, redExampleData])

/-- C4: a missing input never matches a rule: a missing death_cross
rules out red; a missing SMA rules out orange; a missing rsi together
with a missing sma50 or current price rules out yellow; all-missing
fundamentals count zero bad conditions; and the all-missing snapshot
classifies green. -/
theorem health_alert_missing_inputs_green_bias :
    (∀ d : StockData, d.technical.death_cross = none → (health_alert d).level ≠ "red") ∧
    (∀ d : StockData, d.technical.sma50 = none ∨ d.technical.sma200 = none →
      (health_alert d).level ≠ "orange") ∧
    (∀ d : StockData, d.technical.rsi = none →
      d.technical.sma50 = none ∨ d.current = none →
      (health_alert d).level ≠ "yellow") ∧
    (∀ f : Fundamentals, f.roe = none → f.revenue_growth = none →
      f.operating_margin = none → fund_bad f = 0) ∧
    health_alert allMissingData =
      { level := "green", label := "✅ 問題なし", reason := "特に懸念なし" } := by
  refine ⟨?_, ?_, ?_, ?_, ?_⟩
  · intro d h
    simp only [health_alert, h, truthyB, Bool.false_and, Bool.false_eq_true, if_false]
    split
    · decide
    · split
      · decide
      · decide
  · intro d h
    have hgap : (match d.technical.sma50, d.technical.sma200 with
        | some a, some b => if a != 0 && b != 0 then some (|a - b| / b * 100) else none
        | _, _ => (none : Option ℚ)) = none := by
      rcases h with h1 | h1
      · rw [h1]
      · rw [h1]
        cases d.technical.sma50 <;> rfl
    simp only [health_alert, hgap, Bool.false_and, Bool.false_eq_true, if_false]
    split
    · decide
    · split
      · decide
      · decide
  · intro d hrsi hside
    have hyellow : ((match d.technical.rsi with
        | some r => decide (r ≤ 30) | none => false) ||
        (truthyQ d.technical.sma50 && truthyQ d.current &&
          (match d.current, d.technical.sma50 with
           | some c, some s => decide (c < s) | _, _ => false))) = false := by
      rw [hrsi]
      rcases hside with h1 | h1
      · rw [h1]
        simp [truthyQ]
      · rw [h1]
        simp [truthyQ]
    simp only [health_alert, hyellow, Bool.false_eq_true, if_false]
    split
    · decide
    · split
      · decide
      · decide
  · intro f h1 h2 h3
    simp [fund_bad, h1, h2, h3]
  · norm_num [health_alert, fund_bad, truthyB, truthyQ, allMissingData]

theorem health_alert_missing_inputs_green_bias_witness :
    (health_alert allMissingData).level ≠ "red" ∧
    fund_bad ⟨none, none, none⟩ = 0 :=
  ⟨health_alert_missing_inputs_green_bias.1 allMissingData rfl,
   health_alert_missing_inputs_green_bias.2.2.2.1 ⟨none, none, none⟩ rfl rfl rfl⟩

/-! ## RSI lemmas -/

lemma filterMap_id_all_eq {c : ℚ} :
    ∀ (w : List (Option ℚ)), (∀ x ∈ w, x = some c) →
      w.filterMap id = List.replicate w.length c
  | [], _ => rfl
  | x :: rest, h => by
      have hx := h x (List.mem_cons_self _ _)
      subst hx
      simp only [List.filterMap_cons, id, List.length_cons, List.replicate_succ]
      exact congrArg _ (filterMap_id_all_eq rest fun y hy => h y (List.mem_cons_of_mem _ hy))

lemma filterMap_id_all_pos :
    ∀ (w : List (Option ℚ)), (∀ x ∈ w, ∃ d, x = some d ∧ 0 < d) →
      (w.filterMap id).length = w.length ∧ ∀ d ∈ w.filterMap id, 0 < d
  | [], _ => ⟨rfl, by simp⟩
  | x :: rest, h => by
      obtain ⟨d, hx, hd⟩ := h x (List.mem_cons_self _ _)
      subst hx
      obtain ⟨ih1, ih2⟩ :=
        filterMap_id_all_pos rest fun y hy => h y (List.mem_cons_of_mem _ hy)
      refine ⟨?_, ?_⟩
      · simp only [List.filterMap_cons, id, List.length_cons, ih1]
      · intro e he
        simp only [List.filterMap_cons, id] at he
        rcases List.mem_cons.mp he with h1 | h2
        · exact h1 ▸ hd
        · exact ih2 e h2

lemma rollingMean14Last_cons {M : List (Option ℚ)} (h14 : 14 ≤ M.length) :
    rollingMean14Last (none :: M) = rollingMean14Last M := by
  unfold rollingMean14Last
  have h : (none :: M).length - 14 = (M.length - 14) + 1 := by
    simp only [List.length_cons]
    omega
  rw [h, List.drop_succ_cons]

lemma rollingMean14Last_none_head {M : List (Option ℚ)} (hlen : M.length ≤ 13) :
    rollingMean14Last (none :: M) = none := by
  unfold rollingMean14Last
  have h : (none :: M).length - 14 = 0 := by
    simp only [List.length_cons]
    omega
  rw [h, List.drop_zero]
  simp only [List.filterMap_cons, id]
  have := List.length_filterMap_le id M
  rw [if_neg (by omega)]

lemma rollingMean14Last_all_zero {M : List (Option ℚ)} (h14 : 14 ≤ M.length)
    (hz : ∀ x ∈ M, x = some 0) : rollingMean14Last M = some 0 := by
  simp only [rollingMean14Last]
  have hwz : ∀ x ∈ M.drop (M.length - 14), x = some 0 :=
    fun x hx => hz x (List.mem_of_mem_drop hx)
  have hwlen : (M.drop (M.length - 14)).length = 14 := by
    rw [List.length_drop]
    omega
  rw [filterMap_id_all_eq _ hwz, hwlen]
  rw [if_pos (by simp)]
  simp

lemma rollingMean14Last_all_pos {M : List (Option ℚ)} (h14 : 14 ≤ M.length)
    (hp : ∀ x ∈ M, ∃ d, x = some d ∧ 0 < d) :
    ∃ g, rollingMean14Last M = some g ∧ 0 < g := by
  simp only [rollingMean14Last]
  have hwp : ∀ x ∈ M.drop (M.length - 14), ∃ d, x = some d ∧ 0 < d :=
    fun x hx => hp x (List.mem_of_mem_drop hx)
  have hwlen : (M.drop (M.length - 14)).length = 14 := by
    rw [List.length_drop]
    omega
  obtain ⟨hlen2, hpos2⟩ := filterMap_id_all_pos _ hwp
  refine ⟨((M.drop (M.length - 14)).filterMap id).sum / 14, ?_, ?_⟩
  · rw [if_pos (by omega)]
  · have hne : (M.drop (M.length - 14)).filterMap id ≠ [] := by
      intro hemp
      rw [hemp] at hlen2
      simp [hwlen] at hlen2
    have hsum := List.sum_pos _ hpos2 hne
    positivity

lemma zipWith_deltas_pos :
    ∀ (l : List ℚ), List.Chain' (· < ·) l →
      ∀ x ∈ List.zipWith (fun a b => some (b - a)) l l.tail, ∃ d : ℚ, x = some d ∧ 0 < d
  | [], _, x, hx => by simp at hx
  | [a], _, x, hx => by simp at hx
  | a :: b :: rest, hch, x, hx => by
      rw [List.chain'_cons] at hch
      simp only [List.tail_cons, List.zipWith_cons_cons] at hx
      rcases List.mem_cons.mp hx with h1 | h2
      · exact ⟨b - a, h1, by linarith [hch.1]⟩
      · exact zipWith_deltas_pos (b :: rest) hch.2 x h2

lemma computeRsi_at_14 {closes : List ℚ} (hl : closes.length = 14) :
    computeRsi closes = some RVal.nan := by
  have hzlen : (List.zipWith (fun a b => some (b - a)) closes closes.tail).length ≤ 13 := by
    rw [List.length_zipWith, List.length_tail, hl]
    omega
  have hg : rollingMean14Last (gainSeries closes) = none := by
    rw [show gainSeries closes =
        none :: (List.zipWith (fun a b => some (b - a)) closes closes.tail).map
          (Option.map fun d => max d 0) from by simp [gainSeries, priceDeltas]]
    exact rollingMean14Last_none_head (by rw [List.length_map]; exact hzlen)
  have hrs : rsLast closes = RVal.nan := by
    unfold rsLast
    rw [hg]
  have hrsi : rsiLast closes = RVal.nan := by
    unfold rsiLast
    rw [hrs]
  unfold computeRsi
  rw [if_pos (by omega), hrsi]
  rfl

/-- C5 counterexample: a strictly increasing series of exactly 14
points satisfies the claim's hypothesis, yet the computed RSI is the
NaN left by the unfilled rolling window, not the ceiling value 100. -/
theorem rsi_fourteen_points_not_ceiling :
    List.Chain' (· < ·) [(1 : ℚ), 2, 3, 4, 5, 6, 7, 8, 9, 10, 11, 12, 13, 14] ∧
    14 ≤ [(1 : ℚ), 2, 3, 4, 5, 6, 7, 8, 9, 10, 11, 12, 13, 14].length ∧
    computeRsi [(1 : ℚ), 2, 3, 4, 5, 6, 7, 8, 9, 10, 11, 12, 13, 14] ≠
      some (RVal.fin 100) := by
  refine ⟨by norm_num [List.chain'_cons], by simp, ?_⟩
  rw [computeRsi_at_14 (by simp)]
  simp

/-- C5 (amended): for a strictly increasing close series of at least
15 points the trailing 14-delta window is full of gains, the average
loss is 0, and the computed RSI is exactly the ceiling value 100
rather than an error. -/
theorem rsi_increasing_series_ceiling (closes : List ℚ)
    (hlen : 15 ≤ closes.length) (hmono : List.Chain' (· < ·) closes) :
    computeRsi closes = some (RVal.fin 100) := by
  have hZlen : (List.zipWith (fun a b => some (b - a)) closes closes.tail).length =
      closes.length - 1 := by
    rw [List.length_zipWith, List.length_tail]
    omega
  have hZpos := zipWith_deltas_pos closes hmono
  have hgainEq : gainSeries closes =
      none :: (List.zipWith (fun a b => some (b - a)) closes closes.tail).map
        (Option.map fun d => max d 0) := by
    simp [gainSeries, priceDeltas]
  have hlossEq : lossSeries closes =
      none :: (List.zipWith (fun a b => some (b - a)) closes closes.tail).map
        (Option.map fun d => max (-d) 0) := by
    simp [lossSeries, priceDeltas]
  have hmlen : ∀ f : Option ℚ → Option ℚ,
      ((List.zipWith (fun a b => some (b - a)) closes closes.tail).map f).length =
        closes.length - 1 := by
    intro f
    rw [List.length_map, hZlen]
  have hloss : rollingMean14Last (lossSeries closes) = some 0 := by
    rw [hlossEq, rollingMean14Last_cons (by rw [hmlen]; omega)]
    apply rollingMean14Last_all_zero (by rw [hmlen]; omega)
    intro x hx
    obtain ⟨z, hz, hxz⟩ := List.mem_map.mp hx
    obtain ⟨d, hzd, hd⟩ := hZpos z hz
    subst hzd
    rw [← hxz]
    show some (max (-d) 0) = some 0
    rw [max_eq_right (by linarith)]
  have hgain : ∃ g, rollingMean14Last (gainSeries closes) = some g ∧ 0 < g := by
    rw [hgainEq, rollingMean14Last_cons (by rw [hmlen]; omega)]
    apply rollingMean14Last_all_pos (by rw [hmlen]; omega)
    intro x hx
    obtain ⟨z, hz, hxz⟩ := List.mem_map.mp hx
    obtain ⟨d, hzd, hd⟩ := hZpos z hz
    subst hzd
    refine ⟨d, ?_, hd⟩
    rw [← hxz]
    show some (max d 0) = some d
    rw [max_eq_left (by linarith)]
  obtain ⟨g, hg, hgpos⟩ := hgain
  have hrs : rsLast closes = RVal.inf := by
    unfold rsLast
    simp only [hg, hloss]
    rw [if_pos trivial, if_neg (by linarith)]
  have hrsi : rsiLast closes = RVal.fin 100 := by
    unfold rsiLast
    rw [hrs]
  unfold computeRsi
  rw [if_pos (by omega), hrsi]
  show some (RVal.fin (round1 100)) = some (RVal.fin 100)
  rw [round1, show ((100 : ℚ) * 10) = ((1000 : ℤ) : ℚ) by norm_num,
    roundHalfEven_eq_down _ 1000 (by norm_num) (by norm_num)]
  norm_num

theorem rsi_increasing_series_ceiling_witness :
    computeRsi [(1 : ℚ), 2, 3, 4, 5, 6, 7, 8, 9, 10, 11, 12, 13, 14, 15] =
      some (RVal.fin 100) :=
  rsi_increasing_series_ceiling [(1 : ℚ), 2, 3, 4, 5, 6, 7, 8, 9, 10, 11, 12, 13, 14, 15]
    (by simp) (by norm_num [List.chain'_cons])

/-- C6: the RSI is None when fewer than 14 price points exist; but
with exactly 14 points (13 trailing deltas) the code returns the NaN
of the unfilled rolling window instead of None, because the guard
tests rsi_series.empty, which is never true on this path. -/
theorem rsi_window_underfull_nan :
    (∀ closes : List ℚ, closes.length < 14 → computeRsi closes = none) ∧
    computeRsi [(1 : ℚ), 2, 3, 4, 5, 6, 7, 8, 9, 10, 11, 12, 13, 14] = some RVal.nan := by
  refine ⟨?_, computeRsi_at_14 (by simp)⟩
  intro closes h
  unfold computeRsi
  rw [if_neg (by omega)]

theorem rsi_window_underfull_nan_witness :
    computeRsi [(1 : ℚ), 2, 3] = none :=
  rsi_window_underfull_nan.1 [(1 : ℚ), 2, 3] (by simp)

/-- Store used to exhibit the partial persistence of delete_report. -/
def sampleStore : AnalysisStore := { reportExists := true, manifest := [⟨some "AAPL"⟩] }

/-- C9 counterexample: when the manifest step fails after the analysis
document was deleted, delete_report returns an error yet the store has
changed — the report is gone while the manifest still lists it, i.e.
partially persisted state. -/
theorem delete_report_partial_persistence :
    (∃ e, (delete_report sampleStore "AAPL" true false).1 = .error e) ∧
    (delete_report sampleStore "AAPL" true false).2 ≠ sampleStore ∧
    (delete_report sampleStore "AAPL" true false).2.reportExists = false ∧
    (delete_report sampleStore "AAPL" true false).2.manifest = [⟨some "AAPL"⟩] :=
  ⟨⟨.serverError "manifest更新失敗", rfl⟩, by decide, rfl, rfl⟩

/-- C9 (amended): each single document operation is all-or-nothing: a
failure before the report deletion (absent report, or a failing delete
call) leaves the store unchanged; but a manifest-step failure after a
successful deletion leaves exactly the report deletion persisted, with
the manifest untouched. -/
theorem delete_report_failure_modes (st : AnalysisStore) (code : String)
    (delOk manOk : Bool) :
    (st.reportExists = false →
      (delete_report st code delOk manOk).2 = st ∧
      ∃ e, (delete_report st code delOk manOk).1 = .error e) ∧
    (st.reportExists = true → delOk = false →
      (delete_report st code delOk manOk).2 = st ∧
      ∃ e, (delete_report st code delOk manOk).1 = .error e) ∧
    (st.reportExists = true → delOk = true → manOk = false →
      (delete_report st code delOk manOk).2 = { st with reportExists := false } ∧
      ∃ e, (delete_report st code delOk manOk).1 = .error e) := by
  refine ⟨?_, ?_, ?_⟩
  · intro h
    unfold delete_report
    rw [if_pos h]
    exact ⟨rfl, ⟨_, rfl⟩⟩
  · intro h hdel
    unfold delete_report
    rw [if_neg (by rw [h]; simp), if_pos hdel]
    exact ⟨rfl, ⟨_, rfl⟩⟩
  · intro h hdel hman
    unfold delete_report
    rw [if_neg (by rw [h]; simp), if_neg (by rw [hdel]; simp), if_pos hman]
    exact ⟨rfl, ⟨_, rfl⟩⟩

theorem delete_report_failure_modes_witness :
    (delete_report sampleStore "AAPL" true false).2 =
      { sampleStore with reportExists := false } ∧
    ∃ e, (delete_report sampleStore "AAPL" true false).1 = .error e :=
  (delete_report_failure_modes sampleStore "AAPL" true false).2.2 rfl rfl rfl

/-- C10: add_watchlist always creates the entry with status archived,
and the bulk PER refresh skips archived entries, so a freshly added
entry passes through the refresh untouched and is never refreshed. -/
theorem added_entry_excluded_from_per_refresh (wl : List WEntry)
    (req : WatchlistAddRequest) (today today2 : String)
    (fetch : String → Except String (Option ℚ)) (wl2 : List WEntry)
    (hok : add_watchlist wl req today = .ok wl2) :
    (mkWatchEntry req today).status = some "archived" ∧
    wl2 = wl ++ [mkWatchEntry req today] ∧
    (update_watchlist_per wl2 fetch today2).1 =
      (update_watchlist_per wl fetch today2).1 ++ [mkWatchEntry req today] ∧
    (update_watchlist_per wl2 fetch today2).2.1 =
      (update_watchlist_per wl fetch today2).2.1 := by
  have hwl2 : wl2 = wl ++ [mkWatchEntry req today] := by
    unfold add_watchlist at hok
    by_cases hd : wl.any (fun item => item.code == req.code)
    · rw [if_pos hd] at hok
      cases hok
    · rw [if_neg hd] at hok
      injection hok with h
      exact h.symm
  subst hwl2
  refine ⟨rfl, rfl, ?_, ?_⟩
  all_goals
    unfold update_watchlist_per
    rw [List.foldl_append]
    simp [mkWatchEntry]

def sampleAddReq : WatchlistAddRequest := ⟨"9984", "SBG", "", "", none⟩

def failFetch : String → Except String (Option ℚ) := fun _ => .error "yfinance error"

theorem added_entry_excluded_from_per_refresh_witness :
    (mkWatchEntry sampleAddReq "2024-01-01").status = some "archived" ∧
    [mkWatchEntry sampleAddReq "2024-01-01"] =
      [] ++ [mkWatchEntry sampleAddReq "2024-01-01"] ∧
    (update_watchlist_per [mkWatchEntry sampleAddReq "2024-01-01"] failFetch "2024-01-02").1 =
      (update_watchlist_per [] failFetch "2024-01-02").1 ++
        [mkWatchEntry sampleAddReq "2024-01-01"] ∧
    (update_watchlist_per [mkWatchEntry sampleAddReq "2024-01-01"] failFetch "2024-01-02").2.1 =
      (update_watchlist_per [] failFetch "2024-01-02").2.1 :=
  added_entry_excluded_from_per_refresh [] sampleAddReq "2024-01-01" "2024-01-02" failFetch
    [mkWatchEntry sampleAddReq "2024-01-01"] rfl
